import Mathlib

/-!
Verification of the recruitment-analytics dashboard's data pipeline
(`dashboard.py`): the loader, the sidebar filter engine and the aggregators
feeding the KPI tiles and charts, shallowly embedded over an explicit table
data model.
-/

namespace Dashboard

/-- A cell of the loaded spreadsheet: a string, a number (modelled as `Rat`,
covering ints and floats), a calendar date (modelled as an abstract integer
timestamp) or a missing value (pandas `NaN`/`NaT`). -/
inductive Cell where
  | str : String → Cell
  | num : Rat → Cell
  | date : Int → Cell
  | missing : Cell
deriving DecidableEq, Repr

/-- A row maps column names to cell values (association list). -/
abbrev Row : Type := List (String × Cell)

/-- Reading a cell of a row by column name; a column absent from the row reads
as missing, matching how a dataframe materialises absent values. -/
def getCell (r : Row) (c : String) : Cell :=
  (List.lookup c r).getD Cell.missing

/-- The in-memory dataframe: an ordered column list and an ordered row list. -/
structure Table where
  cols : List String
  rows : List Row
deriving DecidableEq, Repr

/-- The column `c` of table `t` as the list of its cells, in row order. -/
def colValues (t : Table) (c : String) : List Cell :=
  t.rows.map (fun r => getCell r c)

/-- The sidebar filter selection: one chosen value (or the sentinel "All") for
each of the three filterable columns, as built at dashboard.py lines 52-62. -/
structure Selection where
  bu : String
  dept : String
  loc : String
deriving DecidableEq, Repr

/-- One conditional filter line of dashboard.py lines 66-71:
`if col in df.columns and selected != 'All': filtered = filtered[filtered[col] == selected]`.
The column-presence test is against the original table's columns (`df.columns`
in the source), passed here as `cols`. -/
def filterStep (cols : List String) (t : Table) (c v : String) : Table :=
  if c ∈ cols ∧ v ≠ "All" then
    { t with rows := t.rows.filter (fun r => getCell r c == Cell.str v) }
  else t

/-- The filter engine of dashboard.py lines 64-71: start from a copy of `df`
and apply the Business Unit, Department and Location filters in sequence. -/
def applyFilters (df : Table) (sel : Selection) : Table :=
  filterStep df.cols
    (filterStep df.cols
      (filterStep df.cols df "Business Unit" sel.bu)
      "Department" sel.dept)
    "Location" sel.loc

/-- Modelled from the spec (§4.2): a single constraint is active only when its
value is not "All" and its column exists in the table; an active constraint
retains a row exactly when the row's cell in that column equals the selected
value; an inactive constraint retains every row. -/
def specConstraint (cols : List String) (c v : String) (r : Row) : Bool :=
  if v ≠ "All" ∧ c ∈ cols then getCell r c == Cell.str v else true

/-- Modelled from the spec (§4.2): the three constraints of a selection
compose conjunctively (logical AND). -/
def specKeeps (cols : List String) (sel : Selection) (r : Row) : Bool :=
  specConstraint cols "Business Unit" sel.bu r &&
    (specConstraint cols "Department" sel.dept r &&
      specConstraint cols "Location" sel.loc r)

/-- The predicate actually applied by one `filterStep`, read off the code. -/
def stepPred (cols : List String) (c v : String) (r : Row) : Bool :=
  if c ∈ cols ∧ v ≠ "All" then getCell r c == Cell.str v else true

theorem filterStep_cols (cols : List String) (t : Table) (c v : String) :
    (filterStep cols t c v).cols = t.cols := by
  unfold filterStep
  split <;> rfl

theorem filterStep_rows (cols : List String) (t : Table) (c v : String) :
    (filterStep cols t c v).rows = t.rows.filter (stepPred cols c v) := by
  unfold filterStep stepPred
  split
  case isTrue h => simp [h]
  case isFalse h => simp [h]

theorem stepPred_eq_spec (cols : List String) (c v : String) (r : Row) :
    stepPred cols c v r = specConstraint cols c v r := by
  unfold stepPred specConstraint
  by_cases hc : c ∈ cols <;> by_cases hv : v = "All" <;> simp [hc, hv]

theorem applyFilters_cols (df : Table) (sel : Selection) :
    (applyFilters df sel).cols = df.cols := by
  simp [applyFilters, filterStep_cols]

theorem applyFilters_rows (df : Table) (sel : Selection) :
    (applyFilters df sel).rows = df.rows.filter (specKeeps df.cols sel) := by
  simp only [applyFilters, filterStep_rows, List.filter_filter]
  apply List.filter_congr
  intro r _
  simp only [specKeeps, ← stepPred_eq_spec]
  cases stepPred df.cols "Business Unit" sel.bu r <;>
    cases stepPred df.cols "Department" sel.dept r <;>
    cases stepPred df.cols "Location" sel.loc r <;> rfl

theorem Table.ext_of (a b : Table) (h1 : a.cols = b.cols) (h2 : a.rows = b.rows) :
    a = b := by
  cases a; cases b; cases h1; cases h2; rfl

/-- C1: for every table and selection over the filterable columns, the
filtered table keeps the column list unchanged and retains exactly the rows
satisfying every active constraint (value not "All" and column present), with
active constraints requiring exact cell equality and composing conjunctively,
and a constraint on an absent column silently ignored. -/
theorem c1_filter_engine_correct (df : Table) (sel : Selection) :
    (applyFilters df sel).cols = df.cols ∧
    (applyFilters df sel).rows = df.rows.filter (specKeeps df.cols sel) :=
  ⟨applyFilters_cols df sel, applyFilters_rows df sel⟩

/-- C2: filtering returns a sublist of the input rows (no row added, order
kept), leaves the columns unchanged, and is idempotent. -/
theorem c2_filter_subset_idempotent (df : Table) (sel : Selection) :
    (applyFilters df sel).rows.Sublist df.rows ∧
    (applyFilters df sel).cols = df.cols ∧
    applyFilters (applyFilters df sel) sel = applyFilters df sel := by
  refine ⟨?_, applyFilters_cols df sel, ?_⟩
  · rw [applyFilters_rows]
    exact List.filter_sublist df.rows
  · apply Table.ext_of
    · rw [applyFilters_cols, applyFilters_cols]
    · rw [applyFilters_rows, applyFilters_rows, applyFilters_cols,
        List.filter_filter]
      apply List.filter_congr
      intro r _
      cases specKeeps df.cols sel r <;> rfl

/-- The selection choosing "All" for every filterable column. -/
def selAll : Selection := ⟨"All", "All", "All"⟩

/-- C3: filtering with "All" selected for every filterable column is the
identity on tables: same rows, in the same order. -/
theorem c3_all_selection_identity (df : Table) :
    applyFilters df selAll = df := by
  simp [applyFilters, filterStep, selAll]

/-! ## Loader -/

/-- The four date-bearing column names of dashboard.py lines 23-24. -/
def date_columns : List String :=
  ["Req Date\n (DD-MMM-YY)", "Req Approved on (DD-MMM-YY)",
   "Requisition Assigned", "DOJ\n(DD-MMM-YY)"]

/-- Embeds `pd.to_datetime(cell, errors='coerce')` at the cell level: a date
stays a date, a number is read as a timestamp, date text is parsed leniently
(modelled as an integer date literal), and an unparsable cell becomes missing
instead of raising. -/
def to_datetime1 : Cell → Cell
  | Cell.date d => Cell.date d
  | Cell.num q => Cell.date q.floor
  | Cell.str s =>
    match s.toInt? with
    | some d => Cell.date d
    | none => Cell.missing
  | Cell.missing => Cell.missing

/-- One iteration of the date-cleaning loop (dashboard.py lines 25-27): if the
column is present in the table, coerce every cell of that column. -/
def coerceDateCol (t : Table) (c : String) : Table :=
  if c ∈ t.cols then
    { t with rows := t.rows.map (fun r =>
        r.map (fun p => if p.1 = c then (p.1, to_datetime1 p.2) else p)) }
  else t

/-- The date-cleaning loop of dashboard.py lines 22-27. -/
def cleanDates (t : Table) : Table := date_columns.foldl coerceDateCol t

/-- The loader `load_data` (dashboard.py lines 13-28): prefer the uploaded
file, else the well-known local `datafile.xlsx` when it exists, else report no
data (`None`); on success clean the four date columns. The two possible file
sources are modelled as optional already-parsed tables (`none` = no upload /
file absent). -/
def load_data (uploaded localFile : Option Table) : Option Table :=
  match uploaded with
  | some f => some (cleanDates f)
  | none =>
    match localFile with
    | some f => some (cleanDates f)
    | none => none

/-! ## Aggregators -/

/-- The characters of a string, lowercased. -/
def lowerChars (s : String) : List Char :=
  s.toList.map Char.toLower

/-- Case-insensitive substring test: embeds the regex search
`.str.contains(pat, case=False)` for the literal alternatives it is used
with. -/
def strContainsCI (hay needle : String) : Bool :=
  decide (lowerChars needle <:+: lowerChars hay)

/-- The row predicate of the Closed Positions metric (dashboard.py line 81):
`Broad Status` matches the case-insensitive pattern 'Closed|Joined'; missing
values count as no match (`na=False`), and non-string cells likewise never
match. -/
def closedPred : Cell → Bool
  | Cell.str s => strContainsCI s "Closed" || strContainsCI s "Joined"
  | _ => false

/-- The Closed Positions metric (dashboard.py line 81). -/
def closedCount (t : Table) : Nat :=
  (t.rows.filter (fun r => closedPred (getCell r "Broad Status"))).length

/-- The numeric value of a decimal digit character. -/
def digitVal (c : Char) : Option Nat :=
  if c.isDigit then some (c.toNat - '0'.toNat) else none

/-- Parses a nonempty run of decimal digits as a natural number. -/
def parseDigits (cs : List Char) : Option Nat :=
  if cs = [] then none
  else
    cs.foldl
      (fun acc c =>
        match acc, digitVal c with
        | some n, some d => some (n * 10 + d)
        | _, _ => none)
      (some 0)

/-- Lenient numeric-literal parsing backing `pd.to_numeric(errors='coerce')`
on text cells: an optional leading minus sign, digits, and an optional
decimal fraction; anything else fails to parse. -/
def parseNum (s : String) : Option Rat :=
  let signBody : Bool × List Char :=
    match s.toList with
    | '-' :: rest => (true, rest)
    | cs => (false, cs)
  let ip := signBody.2.takeWhile (fun c => !(c == '.'))
  let rest := signBody.2.dropWhile (fun c => !(c == '.'))
  let mag : Option Rat :=
    match rest with
    | [] => (parseDigits ip).map (fun n => (n : Rat))
    | _ :: fp =>
      if fp.contains '.' then none
      else
        match parseDigits ip, parseDigits fp with
        | some n, some f =>
          some ((n : Rat) + (f : Rat) / ((10 ^ fp.length : Nat) : Rat))
        | _, _ => none
  mag.map (fun m => if signBody.1 then -m else m)

/-- Embeds `pd.to_numeric(errors='coerce')` at the cell level: numbers stay,
numeric text is coerced, everything else (missing, dates, non-numeric text)
becomes missing (`NaN`, here `none`). -/
def to_numeric1 : Cell → Option Rat
  | Cell.num q => some q
  | Cell.str s => parseNum s
  | _ => none

/-- Embeds `Series.mean()` with its default NaN skipping: the arithmetic mean
of the present values, or NaN (`none`) when no value is present. -/
def seriesMean (l : List (Option Rat)) : Option Rat :=
  let v := l.filterMap id
  if v = [] then none else some (v.sum / (v.length : Rat))

def tatCol : String := "Current TAT\n(Days since Req approved)"

/-- The Avg TAT metric (dashboard.py lines 84-87): coerce the TAT column to
numbers and take the mean; `none` is rendered by the page as "N/A". -/
def avg_tat (t : Table) : Option Rat :=
  seriesMean ((colValues t tatCol).map to_numeric1)

/-- Embeds `Series.sum()` with its default NaN skipping on a numeric column:
missing cells contribute nothing and the empty sum is 0. -/
def seriesSum (l : List Cell) : Rat :=
  (l.filterMap (fun c => match c with | Cell.num q => some q | _ => none)).sum

/-- The Total Profiles Shared metric (dashboard.py lines 89-91); the page
shows `int(total)` with a 0 fallback for NaN, and this sum is never NaN, so
the reported value is the sum itself. -/
def total_profiles (t : Table) : Rat :=
  seriesSum (colValues t "Total nos of profiles shared")

/-- The Candidates Interviewed metric (dashboard.py lines 93-95). -/
def interviewed (t : Table) : Rat :=
  seriesSum (colValues t "Interviewed")

/-! ## Pipeline -/

/-- The outputs of one script run that the claims refer to: the filtered
table, the KPI metrics and two representative chart aggregates, each `none`
when its guard column is absent (that section of the page is omitted). -/
structure DashboardOutput where
  filtered : Table
  total_requisitions : Nat
  closed_positions : Option Nat
  avg_tat_metric : Option (Option Rat)
  total_profiles_metric : Option Rat
  interviewed_metric : Option Rat
deriving DecidableEq, Repr

/-- The script body after the data-loaded check (dashboard.py lines 48-95):
apply the sidebar filters, then compute each column-guarded metric from the
filtered table. -/
def render (df : Table) (sel : Selection) : DashboardOutput :=
  let fd := applyFilters df sel
  { filtered := fd
    total_requisitions := fd.rows.length
    closed_positions :=
      if "Broad Status" ∈ fd.cols then some (closedCount fd) else none
    avg_tat_metric := if tatCol ∈ fd.cols then some (avg_tat fd) else none
    total_profiles_metric :=
      if "Total nos of profiles shared" ∈ fd.cols then some (total_profiles fd)
      else none
    interviewed_metric :=
      if "Interviewed" ∈ fd.cols then some (interviewed fd) else none }

/-- The script's main control flow (dashboard.py lines 36-46): load the data
and, when the loader reports no data, warn and `st.stop()` before any
filtering or aggregation; otherwise run the dashboard body. -/
def runDashboard (uploaded localFile : Option Table) (sel : Selection) :
    Option DashboardOutput :=
  match load_data uploaded localFile with
  | none => none
  | some df => some (render df sel)

/-- C4: with no uploaded file and the local file absent, the loader returns
`None` (no data) rather than raising, and the pipeline halts at the loader
boundary: no filtered table, metric or aggregate is produced. -/
theorem c4_loader_no_input (sel : Selection) :
    load_data none none = none ∧ runDashboard none none sel = none :=
  ⟨rfl, rfl⟩

/-! ## Mean and closed-count claims -/

/-- Modelled from the spec (§4.3): the TAT cells coercible to numbers. -/
def numericTatCells (t : Table) : List Rat :=
  (colValues t tatCol).filterMap to_numeric1

/-- A table whose TAT column reads [5, "NA", 10, null] (the spec's example). -/
def tatExample : Table :=
  { cols := [tatCol]
    rows := [[(tatCol, Cell.num 5)], [(tatCol, Cell.str "NA")],
             [(tatCol, Cell.num 10)], [(tatCol, Cell.missing)]] }

/-- C5: the Avg TAT metric is the arithmetic mean of the cells coercible to
numbers, with non-numeric and missing cells excluded from both numerator and
denominator, reporting N/A (`none`) when no numeric value remains; on the
spec's example column [5, "NA", 10, null] it reports 7.5. -/
theorem c5_avg_tat_mean (t : Table) :
    (avg_tat t =
      if numericTatCells t = [] then none
      else some ((numericTatCells t).sum / ((numericTatCells t).length : Rat))) ∧
    avg_tat tatExample = some ((15 : Rat) / 2) := by
  constructor
  · unfold avg_tat seriesMean numericTatCells
    rw [List.filterMap_map]
    rfl
  · have h1 : (colValues tatExample tatCol).map to_numeric1 =
        [some (5 : Rat), none, some (10 : Rat), none] := by rfl
    unfold avg_tat
    rw [h1]
    simp only [seriesMean, List.filterMap_cons, List.filterMap_nil, id]
    rw [if_neg (by simp)]
    norm_num

/-- C6: the Closed Positions count is exactly the number of rows whose
`Broad Status` contains "Closed" or "Joined" as a case-insensitive substring,
so a value containing either substring anywhere, in any case, is counted as
closed, and one containing neither is not. -/
theorem c6_closed_substring_match (t : Table) :
    (closedCount t =
      (t.rows.filter (fun r =>
        match getCell r "Broad Status" with
        | Cell.str s =>
          decide (lowerChars "Closed" <:+: lowerChars s) ||
            decide (lowerChars "Joined" <:+: lowerChars s)
        | _ => false)).length) ∧
    closedPred (Cell.str "FORECLOSED") = true ∧
    closedPred (Cell.str "candidate joined on site") = true ∧
    closedPred (Cell.str "Open") = false := by
  refine ⟨?_, by decide, by decide, by decide⟩
  unfold closedCount
  congr 1

/-! ## Category counts (`value_counts`) -/

/-- The distinct values of a list, in order of first occurrence. -/
def uniqueInOrder : List Cell → List Cell
  | [] => []
  | c :: rest => c :: uniqueInOrder (rest.filter (fun x => !(x == c)))
termination_by l => l.length
decreasing_by
  simp only [List.length_cons]
  exact Nat.lt_succ_of_le (List.length_filter_le _ _)

/-- How many cells of `l` equal `v` (the size of a `value_counts` group). -/
def countOf (l : List Cell) (v : Cell) : Nat :=
  (l.filter (fun x => x == v)).length

/-- The category → count pairs of a list, in first-encountered order of the
categories. -/
def countsInOrder (l : List Cell) : List (Cell × Nat) :=
  (uniqueInOrder l).map (fun v => (v, countOf l v))

/-- Descending-count comparison ordering `value_counts` output. -/
def countGE (a b : Cell × Nat) : Prop := b.2 ≤ a.2

instance : DecidableRel countGE :=
  fun a b => inferInstanceAs (Decidable (b.2 ≤ a.2))

instance : IsTotal (Cell × Nat) countGE :=
  ⟨fun a b => Nat.le_total b.2 a.2⟩

instance : IsTrans (Cell × Nat) countGE :=
  ⟨fun _ _ _ h1 h2 => Nat.le_trans h2 h1⟩

/-- Nulls are dropped, as `value_counts` does by default. -/
def dropNull (l : List Cell) : List Cell :=
  l.filter (fun c => !(c == Cell.missing))

/-- Embeds `Series.value_counts()`: drop nulls, count each distinct value
(grouped in first-encountered order), then sort by count descending; the sort
is stable, matching the pandas tie behaviour the spec records. -/
def value_counts (l : List Cell) : List (Cell × Nat) :=
  List.insertionSort countGE (countsInOrder (dropNull l))

/-- dashboard.py line 105: the status-breakdown aggregate. -/
def status_counts (t : Table) : List (Cell × Nat) :=
  value_counts (colValues t "Broad Status")

/-- dashboard.py line 114: `value_counts().head(10)`. -/
def bu_counts (t : Table) : List (Cell × Nat) :=
  (value_counts (colValues t "Business Unit")).take 10

/-- dashboard.py line 128: `value_counts().head(10)`. -/
def location_counts (t : Table) : List (Cell × Nat) :=
  (value_counts (colValues t "Location")).take 10

/-- dashboard.py line 139: the gender-distribution aggregate. -/
def gender_counts (t : Table) : List (Cell × Nat) :=
  value_counts (colValues t "Gender")

/-- dashboard.py line 165: `value_counts().head(8)`. -/
def source_counts (t : Table) : List (Cell × Nat) :=
  (value_counts (colValues t "Candidate Source")).take 8

/-- dashboard.py line 177: the new-vs-replacement aggregate. -/
def new_replace_counts (t : Table) : List (Cell × Nat) :=
  value_counts (colValues t "New/ Replacement")

/-- dashboard.py line 210: `value_counts().head(10)`. -/
def dept_counts (t : Table) : List (Cell × Nat) :=
  (value_counts (colValues t "Department")).take 10

theorem filter_orderedInsert_count (p : Cell × Nat) (k : Nat) (l : List (Cell × Nat)) :
    (List.orderedInsert countGE p l).filter (fun q => q.2 == k) =
      (p :: l).filter (fun q => q.2 == k) := by
  induction l with
  | nil => rfl
  | cons q rest ih =>
    rw [List.orderedInsert]
    by_cases h : countGE p q
    · rw [if_pos h]
    · rw [if_neg h]
      by_cases hp : p.2 = k <;> by_cases hq : q.2 = k
      · exact absurd (by simp [countGE, hp, hq]) h
      all_goals simp [List.filter_cons, ih, hp, hq]

theorem insertionSort_stable_filter (m : List (Cell × Nat)) (k : Nat) :
    (List.insertionSort countGE m).filter (fun q => q.2 == k) =
      m.filter (fun q => q.2 == k) := by
  induction m with
  | nil => rfl
  | cons p rest ih =>
    rw [List.insertionSort, filter_orderedInsert_count, List.filter_cons,
      List.filter_cons, ih]

theorem sorted_value_counts (l : List Cell) :
    List.Sorted countGE (value_counts l) :=
  List.sorted_insertionSort countGE (countsInOrder (dropNull l))

theorem sorted_take {m : List (Cell × Nat)} (h : List.Sorted countGE m)
    (n : Nat) : List.Sorted countGE (m.take n) :=
  List.Pairwise.sublist (List.take_sublist n m) h

/-- C7: every category-count aggregate is ordered by descending count and
truncated to its top-N (10 for business unit, location and department, 8 for
candidate source; no truncation for the others); the underlying
`value_counts` output is exactly the per-category counts (a permutation of
the first-encountered-order category/count pairs), and its count sort is
stable: among entries with any given count it preserves the
first-encountered order of the categories. -/
theorem c7_category_counts_ordered_truncated (t : Table) :
    (List.Sorted countGE (bu_counts t) ∧ (bu_counts t).length ≤ 10) ∧
    (List.Sorted countGE (location_counts t) ∧ (location_counts t).length ≤ 10) ∧
    (List.Sorted countGE (dept_counts t) ∧ (dept_counts t).length ≤ 10) ∧
    (List.Sorted countGE (source_counts t) ∧ (source_counts t).length ≤ 8) ∧
    List.Sorted countGE (status_counts t) ∧
    List.Sorted countGE (gender_counts t) ∧
    List.Sorted countGE (new_replace_counts t) ∧
    (∀ l : List Cell, List.Perm (value_counts l) (countsInOrder (dropNull l))) ∧
    (∀ (l : List Cell) (k : Nat),
      (value_counts l).filter (fun q => q.2 == k) =
        (countsInOrder (dropNull l)).filter (fun q => q.2 == k)) :=
  ⟨⟨sorted_take (sorted_value_counts _) 10, List.length_take_le 10 _⟩,
   ⟨sorted_take (sorted_value_counts _) 10, List.length_take_le 10 _⟩,
   ⟨sorted_take (sorted_value_counts _) 10, List.length_take_le 10 _⟩,
   ⟨sorted_take (sorted_value_counts _) 8, List.length_take_le 8 _⟩,
   sorted_value_counts _,
   sorted_value_counts _,
   sorted_value_counts _,
   fun l => List.perm_insertionSort countGE (countsInOrder (dropNull l)),
   fun l k => insertionSort_stable_filter (countsInOrder (dropNull l)) k⟩

/-! ## Empty-table aggregates -/

/-- C8: over an empty filtered table the sum metrics (profiles shared,
interviewed) report 0 and the mean metric (Avg TAT) reports N/A (`none`),
with no crash and no NaN reaching the output. -/
theorem c8_empty_table_aggregates (t : Table) (h : t.rows = []) :
    total_profiles t = 0 ∧ interviewed t = 0 ∧ avg_tat t = none := by
  unfold total_profiles interviewed avg_tat seriesSum seriesMean colValues
  rw [h]
  exact ⟨rfl, rfl, rfl⟩

theorem c8_empty_table_aggregates_witness :
    (Table.mk ["Interviewed"] []).rows = [] ∧
      (total_profiles (Table.mk ["Interviewed"] []) = 0 ∧
        interviewed (Table.mk ["Interviewed"] []) = 0 ∧
        avg_tat (Table.mk ["Interviewed"] []) = none) :=
  ⟨rfl, c8_empty_table_aggregates (Table.mk ["Interviewed"] []) rfl⟩

/-! ## Count conservation -/

theorem mem_of_mem_uniqueInOrder :
    ∀ (l : List Cell) (x : Cell), x ∈ uniqueInOrder l → x ∈ l := by
  intro l
  induction l using uniqueInOrder.induct with
  | case1 =>
    intro x hx
    rw [uniqueInOrder] at hx
    cases hx
  | case2 c rest ih =>
    intro x hx
    rw [uniqueInOrder] at hx
    rcases List.mem_cons.mp hx with h | h
    · exact h ▸ List.mem_cons_self _ _
    · exact List.mem_cons_of_mem _ (List.mem_of_mem_filter (ih _ h))

theorem countOf_cons_self (c : Cell) (rest : List Cell) :
    countOf (c :: rest) c = countOf rest c + 1 := by
  simp [countOf, List.filter_cons]

theorem countOf_cons_ne (c v : Cell) (rest : List Cell) (h : v ≠ c) :
    countOf (c :: rest) v = countOf rest v := by
  simp [countOf, List.filter_cons, Ne.symm h]

theorem countOf_filter_ne (c v : Cell) (h : v ≠ c) (rest : List Cell) :
    countOf (rest.filter (fun x => !(x == c))) v = countOf rest v := by
  induction rest with
  | nil => rfl
  | cons x xs ih =>
    by_cases hx : x = c
    · subst hx
      have h1 : (x :: xs).filter (fun y => !(y == x)) =
          xs.filter (fun y => !(y == x)) := by
        simp [List.filter_cons]
      rw [h1, ih, countOf_cons_ne x v xs h]
    · have h1 : (x :: xs).filter (fun y => !(y == c)) =
          x :: xs.filter (fun y => !(y == c)) := by
        simp [List.filter_cons, hx]
      rw [h1]
      by_cases hv : v = x
      · subst hv
        rw [countOf_cons_self, countOf_cons_self, ih]
      · rw [countOf_cons_ne x v _ hv, countOf_cons_ne x v xs hv, ih]

theorem length_eq_countOf_add (c : Cell) (rest : List Cell) :
    rest.length = countOf rest c + (rest.filter (fun x => !(x == c))).length := by
  induction rest with
  | nil => rfl
  | cons x xs ih =>
    by_cases hx : x = c
    · subst hx
      have h1 : (x :: xs).filter (fun y => !(y == x)) =
          xs.filter (fun y => !(y == x)) := by
        simp [List.filter_cons]
      rw [List.length_cons, countOf_cons_self, h1]
      omega
    · have h1 : (x :: xs).filter (fun y => !(y == c)) =
          x :: xs.filter (fun y => !(y == c)) := by
        simp [List.filter_cons, hx]
      rw [List.length_cons, countOf_cons_ne x c xs (Ne.symm hx), h1,
        List.length_cons]
      omega

theorem sum_countsInOrder : ∀ l : List Cell,
    ((countsInOrder l).map Prod.snd).sum = l.length := by
  intro l
  induction l using uniqueInOrder.induct with
  | case1 => rw [countsInOrder, uniqueInOrder]; rfl
  | case2 c rest ih =>
    have ih' : (List.map
        (fun v => countOf (rest.filter (fun x => !(x == c))) v)
        (uniqueInOrder (rest.filter (fun x => !(x == c))))).sum =
        (rest.filter (fun x => !(x == c))).length := by
      simpa [countsInOrder, List.map_map, Function.comp] using ih
    rw [countsInOrder, uniqueInOrder, List.map_cons, List.map_cons,
      List.map_map, List.sum_cons]
    have hcong : List.map ((fun p => Prod.snd p) ∘ fun v => (v, countOf (c :: rest) v))
        (uniqueInOrder (rest.filter (fun x => !(x == c)))) =
        List.map (fun v => countOf (rest.filter (fun x => !(x == c))) v)
        (uniqueInOrder (rest.filter (fun x => !(x == c)))) := by
      apply List.map_congr_left
      intro v hv
      have hvmem := List.mem_filter.mp (mem_of_mem_uniqueInOrder _ _ hv)
      have hvc : v ≠ c := by
        have := hvmem.2
        simp at this
        exact this
      simp only [Function.comp]
      rw [countOf_cons_ne c v rest hvc, countOf_filter_ne c v hvc rest]
    rw [hcong, ih', countOf_cons_self, List.length_cons]
    have := length_eq_countOf_add c rest
    omega

/-- A table whose `Broad Status` column has three non-missing values. -/
def statusExample : Table :=
  { cols := ["Broad Status"]
    rows := [[("Broad Status", Cell.str "Open")],
             [("Broad Status", Cell.str "Closed")],
             [("Broad Status", Cell.str "Open")]] }

/-- C9: when the `Broad Status` column has no missing value, the per-category
counts of the status-breakdown aggregate sum to the filtered table's row
count: no row dropped, none counted twice. -/
theorem c9_category_count_conservation (t : Table)
    (h : ∀ r ∈ t.rows, getCell r "Broad Status" ≠ Cell.missing) :
    ((status_counts t).map Prod.snd).sum = t.rows.length := by
  unfold status_counts value_counts
  have hperm :=
    List.perm_insertionSort countGE
      (countsInOrder (dropNull (colValues t "Broad Status")))
  rw [List.Perm.sum_eq (hperm.map Prod.snd)]
  have hdrop : dropNull (colValues t "Broad Status") =
      colValues t "Broad Status" := by
    unfold dropNull
    rw [List.filter_eq_self]
    intro a ha
    obtain ⟨r, hr, rfl⟩ := List.mem_map.mp ha
    simpa using h r hr
  rw [hdrop, sum_countsInOrder]
  simp [colValues]

theorem c9_category_count_conservation_witness :
    (∀ r ∈ statusExample.rows, getCell r "Broad Status" ≠ Cell.missing) ∧
      ((status_counts statusExample).map Prod.snd).sum =
        statusExample.rows.length :=
  ⟨by decide, c9_category_count_conservation statusExample (by decide)⟩

/-! ## Missing statuses and the closed metric -/

/-- C10: the closed-positions predicate treats a missing `Broad Status` as
not matching (`na=False`), so the Closed Positions count is at most the
number of rows whose `Broad Status` is present. -/
theorem c10_closed_ignores_missing (t : Table) :
    closedPred Cell.missing = false ∧
    closedCount t ≤
      (t.rows.filter (fun r => !(getCell r "Broad Status" == Cell.missing))).length := by
  refine ⟨rfl, ?_⟩
  unfold closedCount
  rw [← List.countP_eq_length_filter, ← List.countP_eq_length_filter]
  apply List.countP_mono_left
  intro r _ hp
  cases hcell : getCell r "Broad Status" with
  | missing =>
    rw [hcell] at hp
    exact absurd hp (by simp [closedPred])
  | str s => rfl
  | num q => rfl
  | date d => rfl

end Dashboard
